import Mathlib

/-!
Shallow embedding of `src/Mahony.js` (Madgwick's implementation of Mahony's
AHRS algorithm, JavaScript port).  JavaScript numbers are modelled as real
numbers; `Math.pow(x, -0.5)` is modelled as `(Real.sqrt x)⁻¹` and the bitwise
`|` operator on numbers is modelled by an explicit ECMAScript `ToInt32`
conversion followed by a bitwise or of the 32-bit patterns.
-/

/-- The mutable closure state of one `Mahony(sampleInterval)` instance:
`twoKp`, `twoKi`, the quaternion `q0..q3` and the integral feedback terms
`integralFBx/y/z` (source lines 34-37), plus the closure variable
`recipSampleFreq` (line 29), which `mahonyAHRSupdate` mutates (line 165). -/
structure MahonyState where
  twoKp : ℝ
  twoKi : ℝ
  q0 : ℝ
  q1 : ℝ
  q2 : ℝ
  q3 : ℝ
  integralFBx : ℝ
  integralFBy : ℝ
  integralFBz : ℝ
  recipSampleFreq : ℝ

/-- Truncation toward zero of a real number, as ECMAScript `ToInt32` does
before reducing modulo 2^32. -/
noncomputable def truncTowardZero (x : ℝ) : ℤ :=
  if 0 ≤ x then ⌊x⌋ else -⌊-x⌋

/-- The low 32 bits of the ECMAScript `ToInt32` conversion of a (finite)
number: truncate toward zero, reduce modulo 2^32.  (`ToInt32` of `NaN`,
`±Infinity` — e.g. of an omitted argument, whose `ToNumber` is `NaN` — is `0`,
which coincides with this function at `x = 0`.) -/
noncomputable def toUInt32bits (x : ℝ) : ℕ :=
  (truncTowardZero x % (2 ^ 32 : ℤ)).toNat

/-- ECMAScript `a | b` on (finite) numbers: convert both operands with
`ToInt32`, or the 32-bit patterns, reinterpret as a signed 32-bit integer. -/
noncomputable def jsOr (a b : ℝ) : ℝ :=
  let r := Nat.lor (toUInt32bits a) (toUInt32bits b)
  if r < 2 ^ 31 then (r : ℝ) else (r : ℝ) - 2 ^ 32

/-- Source lines 139-156 / 245-262 (the identical tails of both update
variants): pre-multiply the rates by `0.5 * recipSampleFreq`, integrate the
quaternion derivative with the pre-update components, renormalise. -/
noncomputable def integrateAndNormalise (s : MahonyState) (gx gy gz : ℝ) :
    MahonyState :=
  let gx := gx * (0.5 * s.recipSampleFreq)
  let gy := gy * (0.5 * s.recipSampleFreq)
  let gz := gz * (0.5 * s.recipSampleFreq)
  let qa := s.q0
  let qb := s.q1
  let qc := s.q2
  let nq0 := s.q0 + (-qb * gx - qc * gy - s.q3 * gz)
  let nq1 := s.q1 + (qa * gx + qc * gz - s.q3 * gy)
  let nq2 := s.q2 + (qa * gy - qb * gz + s.q3 * gx)
  let nq3 := s.q3 + (qa * gz + qb * gy - qc * gx)
  let recipNorm := (Real.sqrt (nq0 * nq0 + nq1 * nq1 + nq2 * nq2 + nq3 * nq3))⁻¹
  { s with
    q0 := nq0 * recipNorm
    q1 := nq1 * recipNorm
    q2 := nq2 * recipNorm
    q3 := nq3 * recipNorm }

/-- Source lines 96-157: `mahonyAHRSupdateIMU(gx, gy, gz, ax, ay, az)`. -/
noncomputable def mahonyAHRSupdateIMU (s : MahonyState)
    (gx gy gz ax ay az : ℝ) : MahonyState :=
  if ¬(ax = 0 ∧ ay = 0 ∧ az = 0) then
    let recipNorm := (Real.sqrt (ax * ax + ay * ay + az * az))⁻¹
    let ax := ax * recipNorm
    let ay := ay * recipNorm
    let az := az * recipNorm
    let halfvx := s.q1 * s.q3 - s.q0 * s.q2
    let halfvy := s.q0 * s.q1 + s.q2 * s.q3
    let halfvz := s.q0 * s.q0 - 0.5 + s.q3 * s.q3
    let halfex := ay * halfvz - az * halfvy
    let halfey := az * halfvx - ax * halfvz
    let halfez := ax * halfvy - ay * halfvx
    if s.twoKi > 0 then
      let integralFBx := s.integralFBx + s.twoKi * halfex * s.recipSampleFreq
      let integralFBy := s.integralFBy + s.twoKi * halfey * s.recipSampleFreq
      let integralFBz := s.integralFBz + s.twoKi * halfez * s.recipSampleFreq
      let gx := gx + integralFBx
      let gy := gy + integralFBy
      let gz := gz + integralFBz
      let gx := gx + s.twoKp * halfex
      let gy := gy + s.twoKp * halfey
      let gz := gz + s.twoKp * halfez
      integrateAndNormalise
        { s with integralFBx := integralFBx, integralFBy := integralFBy,
                 integralFBz := integralFBz } gx gy gz
    else
      let gx := gx + s.twoKp * halfex
      let gy := gy + s.twoKp * halfey
      let gz := gz + s.twoKp * halfez
      integrateAndNormalise
        { s with integralFBx := 0, integralFBy := 0, integralFBz := 0 }
        gx gy gz
  else
    integrateAndNormalise s gx gy gz

/-- Source lines 179-262: the 9-axis body of `mahonyAHRSupdate`, reached when
the magnetometer vector is non-zero. -/
noncomputable def mahonyAHRSupdate9 (s : MahonyState)
    (gx gy gz ax ay az mx my mz : ℝ) : MahonyState :=
  if ¬(ax = 0 ∧ ay = 0 ∧ az = 0) then
    let recipNorm := (Real.sqrt (ax * ax + ay * ay + az * az))⁻¹
    let ax := ax * recipNorm
    let ay := ay * recipNorm
    let az := az * recipNorm
    let recipNormM := (Real.sqrt (mx * mx + my * my + mz * mz))⁻¹
    let mx := mx * recipNormM
    let my := my * recipNormM
    let mz := mz * recipNormM
    let q0q0 := s.q0 * s.q0
    let q0q1 := s.q0 * s.q1
    let q0q2 := s.q0 * s.q2
    let q0q3 := s.q0 * s.q3
    let q1q1 := s.q1 * s.q1
    let q1q2 := s.q1 * s.q2
    let q1q3 := s.q1 * s.q3
    let q2q2 := s.q2 * s.q2
    let q2q3 := s.q2 * s.q3
    let q3q3 := s.q3 * s.q3
    let hx := 2.0 * (mx * (0.5 - q2q2 - q3q3) + my * (q1q2 - q0q3) + mz * (q1q3 + q0q2))
    let hy := 2.0 * (mx * (q1q2 + q0q3) + my * (0.5 - q1q1 - q3q3) + mz * (q2q3 - q0q1))
    let bx := Real.sqrt (hx * hx + hy * hy)
    let bz := 2.0 * (mx * (q1q3 - q0q2) + my * (q2q3 + q0q1) + mz * (0.5 - q1q1 - q2q2))
    let halfvx := q1q3 - q0q2
    let halfvy := q0q1 + q2q3
    let halfvz := q0q0 - 0.5 + q3q3
    let halfwx := bx * (0.5 - q2q2 - q3q3) + bz * (q1q3 - q0q2)
    let halfwy := bx * (q1q2 - q0q3) + bz * (q0q1 + q2q3)
    let halfwz := bx * (q0q2 + q1q3) + bz * (0.5 - q1q1 - q2q2)
    let halfex := (ay * halfvz - az * halfvy) + (my * halfwz - mz * halfwy)
    let halfey := (az * halfvx - ax * halfvz) + (mz * halfwx - mx * halfwz)
    let halfez := (ax * halfvy - ay * halfvx) + (mx * halfwy - my * halfwx)
    if s.twoKi > 0 then
      let integralFBx := s.integralFBx + s.twoKi * halfex * s.recipSampleFreq
      let integralFBy := s.integralFBy + s.twoKi * halfey * s.recipSampleFreq
      let integralFBz := s.integralFBz + s.twoKi * halfez * s.recipSampleFreq
      let gx := gx + integralFBx
      let gy := gy + integralFBy
      let gz := gz + integralFBz
      let gx := gx + s.twoKp * halfex
      let gy := gy + s.twoKp * halfey
      let gz := gz + s.twoKp * halfez
      integrateAndNormalise
        { s with integralFBx := integralFBx, integralFBy := integralFBy,
                 integralFBz := integralFBz } gx gy gz
    else
      let gx := gx + s.twoKp * halfex
      let gy := gy + s.twoKp * halfey
      let gz := gz + s.twoKp * halfez
      integrateAndNormalise
        { s with integralFBx := 0, integralFBy := 0, integralFBz := 0 }
        gx gy gz
  else
    integrateAndNormalise s gx gy gz

/-- Source lines 164-263: `mahonyAHRSupdate`.  Line 165 first overwrites the
closure variable `recipSampleFreq` with `deltaTimeSec | recipSampleFreq`
(JavaScript bitwise or); an omitted `deltaTimeSec` behaves as `0` there
(`ToInt32(undefined) = 0`).  Then a zero magnetometer vector dispatches to the
IMU variant, otherwise the 9-axis body runs. -/
noncomputable def mahonyAHRSupdate (s : MahonyState)
    (gx gy gz ax ay az mx my mz deltaTimeSec : ℝ) : MahonyState :=
  let s := { s with recipSampleFreq := jsOr deltaTimeSec s.recipSampleFreq }
  if mx = 0 ∧ my = 0 ∧ mz = 0 then
    mahonyAHRSupdateIMU s gx gy gz ax ay az
  else
    mahonyAHRSupdate9 s gx gy gz ax ay az mx my mz

/-- Source lines 20-37: `Mahony(sampleInterval)` — the constructed closure
state. `sampleFreq = 1000 / sampleInterval`, `twoKpDef = 2.0 * 0.5`,
`twoKiDef = 2.0 * 0.0`, `recipSampleFreq = 1 / sampleFreq`, quaternion
starts at the identity and the integral feedback at zero. -/
noncomputable def Mahony (sampleInterval : ℝ) : MahonyState :=
  let sampleFreq := 1000 / sampleInterval
  { twoKp := 2.0 * 0.5
    twoKi := 2.0 * 0.0
    q0 := 1
    q1 := 0
    q2 := 0
    q3 := 0
    integralFBx := 0
    integralFBy := 0
    integralFBz := 0
    recipSampleFreq := 1 / sampleFreq }

/-- Source lines 50-57: `initialise(amx, amy, amz)` — the angle is the
constant `0` (the TODO in the source), so the quaternion is seeded from
`cos(0/2)` and `sin(0/2)`. -/
noncomputable def initialise (s : MahonyState) (amx amy amz : ℝ) :
    MahonyState :=
  let angle : ℝ := 0
  let sinAngle := Real.sin (angle / 2)
  { s with
    q0 := Real.cos (angle / 2)
    q1 := amx * sinAngle
    q2 := amy * sinAngle
    q3 := amz * sinAngle }

/-- The quaternion view returned by `getQuaternion` (source lines 61-68). -/
structure QuatView where
  w : ℝ
  x : ℝ
  y : ℝ
  z : ℝ

/-- Source lines 61-68: `getQuaternion()`. -/
def getQuaternion (s : MahonyState) : QuatView :=
  { w := s.q0, x := s.q1, y := s.q2, z := s.q3 }

/-- JavaScript division restricted to finite results: `none` models the
non-finite value (`±Infinity` or `NaN`) that a JS division by zero yields. -/
noncomputable def jsDiv (a b : ℝ) : Option ℝ :=
  if b = 0 then none else some (a / b)

/-- The axis-angle view returned by `toVector` (source lines 75-84); the axis
components are `Option ℝ` because the source's divisions can be by zero. -/
structure AxisAngleView where
  angle : ℝ
  x : Option ℝ
  y : Option ℝ
  z : Option ℝ

/-- Source lines 75-84: `toVector()` — `angle = 2 * acos(q0)`,
`sinAngle = sin(angle / 2)`, axis components `q1/sinAngle` etc. -/
noncomputable def toVector (s : MahonyState) : AxisAngleView :=
  let angle := 2 * Real.arccos s.q0
  let sinAngle := Real.sin (angle / 2)
  { angle := angle
    x := jsDiv s.q1 sinAngle
    y := jsDiv s.q2 sinAngle
    z := jsDiv s.q3 sinAngle }

/-- Squared norm of a quaternion given by components (source line 258 form). -/
def quatNormSq (a b c d : ℝ) : ℝ :=
  a * a + b * b + c * c + d * d

/-- One `update` call's arguments. -/
structure SensorCall where
  gx : ℝ
  gy : ℝ
  gz : ℝ
  ax : ℝ
  ay : ℝ
  az : ℝ
  mx : ℝ
  my : ℝ
  mz : ℝ
  deltaTimeSec : ℝ

/-- Apply one `update` call. -/
noncomputable def applyCall (s : MahonyState) (c : SensorCall) : MahonyState :=
  mahonyAHRSupdate s c.gx c.gy c.gz c.ax c.ay c.az c.mx c.my c.mz c.deltaTimeSec

/-- Run a sequence of `update` calls in order. -/
noncomputable def runUpdates (s : MahonyState) (cs : List SensorCall) :
    MahonyState :=
  cs.foldl applyCall s

/-- The states a filter instance can be in: any constructed state, closed
under the two mutating operations `update` and `initialise`. -/
inductive Reachable : MahonyState → Prop
  | construct (sampleInterval : ℝ) : Reachable (Mahony sampleInterval)
  | update (s : MahonyState) (gx gy gz ax ay az mx my mz deltaTimeSec : ℝ) :
      Reachable s →
      Reachable (mahonyAHRSupdate s gx gy gz ax ay az mx my mz deltaTimeSec)
  | init (s : MahonyState) (amx amy amz : ℝ) :
      Reachable s → Reachable (initialise s amx amy amz)

/-! ### Helper lemmas -/

theorem renorm_normSq (a b c d : ℝ) (h : 0 < a * a + b * b + c * c + d * d) :
    (a * (Real.sqrt (a * a + b * b + c * c + d * d))⁻¹) *
      (a * (Real.sqrt (a * a + b * b + c * c + d * d))⁻¹) +
    (b * (Real.sqrt (a * a + b * b + c * c + d * d))⁻¹) *
      (b * (Real.sqrt (a * a + b * b + c * c + d * d))⁻¹) +
    (c * (Real.sqrt (a * a + b * b + c * c + d * d))⁻¹) *
      (c * (Real.sqrt (a * a + b * b + c * c + d * d))⁻¹) +
    (d * (Real.sqrt (a * a + b * b + c * c + d * d))⁻¹) *
      (d * (Real.sqrt (a * a + b * b + c * c + d * d))⁻¹) = 1 := by
  have hs : Real.sqrt (a * a + b * b + c * c + d * d) *
      Real.sqrt (a * a + b * b + c * c + d * d) = a * a + b * b + c * c + d * d :=
    Real.mul_self_sqrt h.le
  have heq : (a * (Real.sqrt (a * a + b * b + c * c + d * d))⁻¹) *
      (a * (Real.sqrt (a * a + b * b + c * c + d * d))⁻¹) +
      (b * (Real.sqrt (a * a + b * b + c * c + d * d))⁻¹) *
        (b * (Real.sqrt (a * a + b * b + c * c + d * d))⁻¹) +
      (c * (Real.sqrt (a * a + b * b + c * c + d * d))⁻¹) *
        (c * (Real.sqrt (a * a + b * b + c * c + d * d))⁻¹) +
      (d * (Real.sqrt (a * a + b * b + c * c + d * d))⁻¹) *
        (d * (Real.sqrt (a * a + b * b + c * c + d * d))⁻¹) =
      (a * a + b * b + c * c + d * d) *
        (Real.sqrt (a * a + b * b + c * c + d * d) *
          Real.sqrt (a * a + b * b + c * c + d * d))⁻¹ := by
    rw [mul_inv]
    ring
  rw [heq, hs, mul_inv_cancel₀ h.ne']

theorem integ_step_normSq (q0 q1 q2 q3 gx gy gz : ℝ) :
    (q0 + (-q1 * gx - q2 * gy - q3 * gz)) * (q0 + (-q1 * gx - q2 * gy - q3 * gz)) +
    (q1 + (q0 * gx + q2 * gz - q3 * gy)) * (q1 + (q0 * gx + q2 * gz - q3 * gy)) +
    (q2 + (q0 * gy - q1 * gz + q3 * gx)) * (q2 + (q0 * gy - q1 * gz + q3 * gx)) +
    (q3 + (q0 * gz + q1 * gy - q2 * gx)) * (q3 + (q0 * gz + q1 * gy - q2 * gx)) =
    (q0 * q0 + q1 * q1 + q2 * q2 + q3 * q3) * (1 + (gx * gx + gy * gy + gz * gz)) := by
  ring

theorem integrateAndNormalise_normSq (s : MahonyState) (gx gy gz : ℝ)
    (h : quatNormSq s.q0 s.q1 s.q2 s.q3 = 1) :
    quatNormSq (integrateAndNormalise s gx gy gz).q0
      (integrateAndNormalise s gx gy gz).q1
      (integrateAndNormalise s gx gy gz).q2
      (integrateAndNormalise s gx gy gz).q3 = 1 := by
  simp only [quatNormSq] at h ⊢
  simp only [integrateAndNormalise]
  refine renorm_normSq _ _ _ _ ?_
  rw [integ_step_normSq, h, one_mul]
  have h1 := mul_self_nonneg (gx * (0.5 * s.recipSampleFreq))
  have h2 := mul_self_nonneg (gy * (0.5 * s.recipSampleFreq))
  have h3 := mul_self_nonneg (gz * (0.5 * s.recipSampleFreq))
  linarith

theorem integrateAndNormalise_recip_zero (s : MahonyState) (gx gy gz : ℝ)
    (h0 : s.recipSampleFreq = 0) (h : quatNormSq s.q0 s.q1 s.q2 s.q3 = 1) :
    (integrateAndNormalise s gx gy gz).q0 = s.q0 ∧
    (integrateAndNormalise s gx gy gz).q1 = s.q1 ∧
    (integrateAndNormalise s gx gy gz).q2 = s.q2 ∧
    (integrateAndNormalise s gx gy gz).q3 = s.q3 := by
  simp only [quatNormSq] at h
  simp only [integrateAndNormalise, h0]
  norm_num [h, Real.sqrt_one]

theorem mahonyAHRSupdateIMU_normSq (s : MahonyState) (gx gy gz ax ay az : ℝ)
    (h : quatNormSq s.q0 s.q1 s.q2 s.q3 = 1) :
    quatNormSq (mahonyAHRSupdateIMU s gx gy gz ax ay az).q0
      (mahonyAHRSupdateIMU s gx gy gz ax ay az).q1
      (mahonyAHRSupdateIMU s gx gy gz ax ay az).q2
      (mahonyAHRSupdateIMU s gx gy gz ax ay az).q3 = 1 := by
  simp only [mahonyAHRSupdateIMU]
  split_ifs with h1 h2
  · exact integrateAndNormalise_normSq _ _ _ _ h
  · exact integrateAndNormalise_normSq _ _ _ _ h
  · exact integrateAndNormalise_normSq _ _ _ _ h

theorem mahonyAHRSupdate9_normSq (s : MahonyState)
    (gx gy gz ax ay az mx my mz : ℝ)
    (h : quatNormSq s.q0 s.q1 s.q2 s.q3 = 1) :
    quatNormSq (mahonyAHRSupdate9 s gx gy gz ax ay az mx my mz).q0
      (mahonyAHRSupdate9 s gx gy gz ax ay az mx my mz).q1
      (mahonyAHRSupdate9 s gx gy gz ax ay az mx my mz).q2
      (mahonyAHRSupdate9 s gx gy gz ax ay az mx my mz).q3 = 1 := by
  simp only [mahonyAHRSupdate9]
  split_ifs with h1 h2
  · exact integrateAndNormalise_normSq _ _ _ _ h
  · exact integrateAndNormalise_normSq _ _ _ _ h
  · exact integrateAndNormalise_normSq _ _ _ _ h

theorem mahonyAHRSupdate_normSq (s : MahonyState)
    (gx gy gz ax ay az mx my mz deltaTimeSec : ℝ)
    (h : quatNormSq s.q0 s.q1 s.q2 s.q3 = 1) :
    quatNormSq (mahonyAHRSupdate s gx gy gz ax ay az mx my mz deltaTimeSec).q0
      (mahonyAHRSupdate s gx gy gz ax ay az mx my mz deltaTimeSec).q1
      (mahonyAHRSupdate s gx gy gz ax ay az mx my mz deltaTimeSec).q2
      (mahonyAHRSupdate s gx gy gz ax ay az mx my mz deltaTimeSec).q3 = 1 := by
  simp only [mahonyAHRSupdate]
  split_ifs with hm
  · exact mahonyAHRSupdateIMU_normSq _ _ _ _ _ _ _ h
  · exact mahonyAHRSupdate9_normSq _ _ _ _ _ _ _ _ _ _ h

theorem integrateAndNormalise_fields (s : MahonyState) (gx gy gz : ℝ) :
    (integrateAndNormalise s gx gy gz).twoKp = s.twoKp ∧
    (integrateAndNormalise s gx gy gz).twoKi = s.twoKi ∧
    (integrateAndNormalise s gx gy gz).integralFBx = s.integralFBx ∧
    (integrateAndNormalise s gx gy gz).integralFBy = s.integralFBy ∧
    (integrateAndNormalise s gx gy gz).integralFBz = s.integralFBz ∧
    (integrateAndNormalise s gx gy gz).recipSampleFreq = s.recipSampleFreq :=
  ⟨rfl, rfl, rfl, rfl, rfl, rfl⟩

theorem mahonyAHRSupdateIMU_gains (s : MahonyState) (gx gy gz ax ay az : ℝ) :
    (mahonyAHRSupdateIMU s gx gy gz ax ay az).twoKp = s.twoKp ∧
    (mahonyAHRSupdateIMU s gx gy gz ax ay az).twoKi = s.twoKi ∧
    (mahonyAHRSupdateIMU s gx gy gz ax ay az).recipSampleFreq
      = s.recipSampleFreq := by
  simp only [mahonyAHRSupdateIMU]
  split_ifs with h1 h2 <;> exact ⟨rfl, rfl, rfl⟩

theorem mahonyAHRSupdate9_gains (s : MahonyState)
    (gx gy gz ax ay az mx my mz : ℝ) :
    (mahonyAHRSupdate9 s gx gy gz ax ay az mx my mz).twoKp = s.twoKp ∧
    (mahonyAHRSupdate9 s gx gy gz ax ay az mx my mz).twoKi = s.twoKi ∧
    (mahonyAHRSupdate9 s gx gy gz ax ay az mx my mz).recipSampleFreq
      = s.recipSampleFreq := by
  simp only [mahonyAHRSupdate9]
  split_ifs with h1 h2 <;> exact ⟨rfl, rfl, rfl⟩

theorem mahonyAHRSupdate_gains (s : MahonyState)
    (gx gy gz ax ay az mx my mz deltaTimeSec : ℝ) :
    (mahonyAHRSupdate s gx gy gz ax ay az mx my mz deltaTimeSec).twoKp
      = s.twoKp ∧
    (mahonyAHRSupdate s gx gy gz ax ay az mx my mz deltaTimeSec).twoKi
      = s.twoKi ∧
    (mahonyAHRSupdate s gx gy gz ax ay az mx my mz deltaTimeSec).recipSampleFreq
      = jsOr deltaTimeSec s.recipSampleFreq := by
  simp only [mahonyAHRSupdate]
  split_ifs with hm
  · exact mahonyAHRSupdateIMU_gains _ _ _ _ _ _ _
  · exact mahonyAHRSupdate9_gains _ _ _ _ _ _ _ _ _ _

theorem mahonyAHRSupdateIMU_iFB_zero (s : MahonyState) (gx gy gz ax ay az : ℝ)
    (hki : s.twoKi = 0) (hx : s.integralFBx = 0) (hy : s.integralFBy = 0)
    (hz : s.integralFBz = 0) :
    (mahonyAHRSupdateIMU s gx gy gz ax ay az).integralFBx = 0 ∧
    (mahonyAHRSupdateIMU s gx gy gz ax ay az).integralFBy = 0 ∧
    (mahonyAHRSupdateIMU s gx gy gz ax ay az).integralFBz = 0 := by
  simp only [mahonyAHRSupdateIMU]
  split_ifs with h1 h2
  · exact ⟨hx, hy, hz⟩
  · rw [hki] at h2
    exact absurd h2 (lt_irrefl 0)
  · exact ⟨rfl, rfl, rfl⟩

theorem mahonyAHRSupdate9_iFB_zero (s : MahonyState)
    (gx gy gz ax ay az mx my mz : ℝ)
    (hki : s.twoKi = 0) (hx : s.integralFBx = 0) (hy : s.integralFBy = 0)
    (hz : s.integralFBz = 0) :
    (mahonyAHRSupdate9 s gx gy gz ax ay az mx my mz).integralFBx = 0 ∧
    (mahonyAHRSupdate9 s gx gy gz ax ay az mx my mz).integralFBy = 0 ∧
    (mahonyAHRSupdate9 s gx gy gz ax ay az mx my mz).integralFBz = 0 := by
  simp only [mahonyAHRSupdate9]
  split_ifs with h1 h2
  · exact ⟨hx, hy, hz⟩
  · rw [hki] at h2
    exact absurd h2 (lt_irrefl 0)
  · exact ⟨rfl, rfl, rfl⟩

theorem mahonyAHRSupdate_iFB_zero (s : MahonyState)
    (gx gy gz ax ay az mx my mz deltaTimeSec : ℝ)
    (hki : s.twoKi = 0) (hx : s.integralFBx = 0) (hy : s.integralFBy = 0)
    (hz : s.integralFBz = 0) :
    (mahonyAHRSupdate s gx gy gz ax ay az mx my mz deltaTimeSec).integralFBx = 0 ∧
    (mahonyAHRSupdate s gx gy gz ax ay az mx my mz deltaTimeSec).integralFBy = 0 ∧
    (mahonyAHRSupdate s gx gy gz ax ay az mx my mz deltaTimeSec).integralFBz = 0 := by
  simp only [mahonyAHRSupdate]
  split_ifs with hm
  · exact mahonyAHRSupdateIMU_iFB_zero _ _ _ _ _ _ _ hki hx hy hz
  · exact mahonyAHRSupdate9_iFB_zero _ _ _ _ _ _ _ _ _ _ hki hx hy hz

theorem initialise_eq (s : MahonyState) (amx amy amz : ℝ) :
    initialise s amx amy amz =
      { s with q0 := 1, q1 := 0, q2 := 0, q3 := 0 } := by
  simp only [initialise]
  norm_num

theorem truncTowardZero_eq_zero (x : ℝ) (h0 : 0 ≤ x) (h1 : x < 1) :
    truncTowardZero x = 0 := by
  unfold truncTowardZero
  rw [if_pos h0]
  exact Int.floor_eq_zero_iff.mpr ⟨h0, h1⟩

theorem toUInt32bits_eq_zero (x : ℝ) (h0 : 0 ≤ x) (h1 : x < 1) :
    toUInt32bits x = 0 := by
  unfold toUInt32bits
  rw [truncTowardZero_eq_zero x h0 h1]
  norm_num

theorem jsOr_eq_zero (a b : ℝ) (ha0 : 0 ≤ a) (ha1 : a < 1) (hb0 : 0 ≤ b)
    (hb1 : b < 1) : jsOr a b = 0 := by
  simp only [jsOr]
  rw [toUInt32bits_eq_zero a ha0 ha1, toUInt32bits_eq_zero b hb0 hb1]
  have hlor : Nat.lor 0 0 = 0 := rfl
  rw [hlor]
  norm_num

theorem mahonyAHRSupdateIMU_q_recip_zero (s : MahonyState)
    (gx gy gz ax ay az : ℝ) (h0 : s.recipSampleFreq = 0)
    (hq : quatNormSq s.q0 s.q1 s.q2 s.q3 = 1) :
    (mahonyAHRSupdateIMU s gx gy gz ax ay az).q0 = s.q0 ∧
    (mahonyAHRSupdateIMU s gx gy gz ax ay az).q1 = s.q1 ∧
    (mahonyAHRSupdateIMU s gx gy gz ax ay az).q2 = s.q2 ∧
    (mahonyAHRSupdateIMU s gx gy gz ax ay az).q3 = s.q3 := by
  simp only [mahonyAHRSupdateIMU]
  split_ifs with h1 h2
  · exact integrateAndNormalise_recip_zero _ _ _ _ h0 hq
  · exact integrateAndNormalise_recip_zero _ _ _ _ h0 hq
  · exact integrateAndNormalise_recip_zero _ _ _ _ h0 hq

theorem mahonyAHRSupdate9_q_recip_zero (s : MahonyState)
    (gx gy gz ax ay az mx my mz : ℝ) (h0 : s.recipSampleFreq = 0)
    (hq : quatNormSq s.q0 s.q1 s.q2 s.q3 = 1) :
    (mahonyAHRSupdate9 s gx gy gz ax ay az mx my mz).q0 = s.q0 ∧
    (mahonyAHRSupdate9 s gx gy gz ax ay az mx my mz).q1 = s.q1 ∧
    (mahonyAHRSupdate9 s gx gy gz ax ay az mx my mz).q2 = s.q2 ∧
    (mahonyAHRSupdate9 s gx gy gz ax ay az mx my mz).q3 = s.q3 := by
  simp only [mahonyAHRSupdate9]
  split_ifs with h1 h2
  · exact integrateAndNormalise_recip_zero _ _ _ _ h0 hq
  · exact integrateAndNormalise_recip_zero _ _ _ _ h0 hq
  · exact integrateAndNormalise_recip_zero _ _ _ _ h0 hq

theorem mahonyAHRSupdate_q_frozen (s : MahonyState)
    (gx gy gz ax ay az mx my mz deltaTimeSec : ℝ)
    (hor : jsOr deltaTimeSec s.recipSampleFreq = 0)
    (hq : quatNormSq s.q0 s.q1 s.q2 s.q3 = 1) :
    (mahonyAHRSupdate s gx gy gz ax ay az mx my mz deltaTimeSec).q0 = s.q0 ∧
    (mahonyAHRSupdate s gx gy gz ax ay az mx my mz deltaTimeSec).q1 = s.q1 ∧
    (mahonyAHRSupdate s gx gy gz ax ay az mx my mz deltaTimeSec).q2 = s.q2 ∧
    (mahonyAHRSupdate s gx gy gz ax ay az mx my mz deltaTimeSec).q3 = s.q3 := by
  simp only [mahonyAHRSupdate]
  split_ifs with hm
  · exact mahonyAHRSupdateIMU_q_recip_zero _ _ _ _ _ _ _ hor hq
  · exact mahonyAHRSupdate9_q_recip_zero _ _ _ _ _ _ _ _ _ _ hor hq

theorem Mahony_fields (sampleInterval : ℝ) :
    (Mahony sampleInterval).twoKp = 1 ∧
    (Mahony sampleInterval).twoKi = 0 ∧
    (Mahony sampleInterval).q0 = 1 ∧
    (Mahony sampleInterval).q1 = 0 ∧
    (Mahony sampleInterval).q2 = 0 ∧
    (Mahony sampleInterval).q3 = 0 ∧
    (Mahony sampleInterval).integralFBx = 0 ∧
    (Mahony sampleInterval).integralFBy = 0 ∧
    (Mahony sampleInterval).integralFBz = 0 := by
  simp only [Mahony]
  norm_num

theorem jsOr_zero_two : jsOr 0 2 = 2 := by
  simp only [jsOr, toUInt32bits, truncTowardZero]
  rw [if_pos (le_refl (0 : ℝ)), if_pos (by norm_num : (0 : ℝ) ≤ 2)]
  norm_num
  have h : Nat.lor 0 (Int.toNat 2) = 2 := rfl
  rw [h]
  norm_num

theorem updateIMU_zero_accel (s : MahonyState) (gx gy gz : ℝ) :
    mahonyAHRSupdateIMU s gx gy gz 0 0 0 = integrateAndNormalise s gx gy gz := by
  simp [mahonyAHRSupdateIMU]

theorem update9_zero_accel (s : MahonyState) (gx gy gz mx my mz : ℝ) :
    mahonyAHRSupdate9 s gx gy gz 0 0 0 mx my mz =
      integrateAndNormalise s gx gy gz := by
  simp [mahonyAHRSupdate9]

theorem integrateAndNormalise_zero_g (s : MahonyState)
    (hq : quatNormSq s.q0 s.q1 s.q2 s.q3 = 1) :
    (integrateAndNormalise s 0 0 0).q0 = s.q0 ∧
    (integrateAndNormalise s 0 0 0).q1 = s.q1 ∧
    (integrateAndNormalise s 0 0 0).q2 = s.q2 ∧
    (integrateAndNormalise s 0 0 0).q3 = s.q3 := by
  simp only [quatNormSq] at hq
  simp only [integrateAndNormalise]
  norm_num [hq, Real.sqrt_one]

/-! ### Claim theorems -/

/-- C1: for every sequence of operations on a constructed filter (any gyro,
accelerometer, magnetometer and delta-time arguments in any update calls),
the quaternion state `(q0, q1, q2, q3)` has squared norm exactly 1 in the
real-number model immediately after every call, because both algorithm
variants end by rescaling the quaternion by the reciprocal square root of its
squared norm. -/
theorem quaternion_unit_norm_invariant (s : MahonyState) (h : Reachable s) :
    quatNormSq s.q0 s.q1 s.q2 s.q3 = 1 := by
  induction h with
  | construct si => norm_num [quatNormSq, Mahony]
  | update s gx gy gz ax ay az mx my mz dt hs ih =>
      exact mahonyAHRSupdate_normSq _ _ _ _ _ _ _ _ _ _ _ ih
  | init s amx amy amz hs ih =>
      rw [initialise_eq]
      norm_num [quatNormSq]

/-- Witness for C1 at a concrete reachable state: one update call with
non-trivial arguments after construction with a 20 ms interval. -/
theorem quaternion_unit_norm_invariant_witness :
    quatNormSq (mahonyAHRSupdate (Mahony 20) 1 2 3 4 5 6 7 8 9 0).q0
      (mahonyAHRSupdate (Mahony 20) 1 2 3 4 5 6 7 8 9 0).q1
      (mahonyAHRSupdate (Mahony 20) 1 2 3 4 5 6 7 8 9 0).q2
      (mahonyAHRSupdate (Mahony 20) 1 2 3 4 5 6 7 8 9 0).q3 = 1 :=
  quaternion_unit_norm_invariant _
    (Reachable.update _ 1 2 3 4 5 6 7 8 9 0 (Reachable.construct 20))

/-- C4: a call with magnetometer exactly `(0,0,0)` executes the 6-axis
IMU-only variant and returns; a call with any non-zero magnetometer component
executes the 9-axis body.  The decision is made from the current call's
arguments alone (the state carries no mode field), after the
`recipSampleFreq` assignment of line 165. -/
theorem update_mode_dispatch (s : MahonyState)
    (gx gy gz ax ay az mx my mz deltaTimeSec : ℝ) :
    ((mx = 0 ∧ my = 0 ∧ mz = 0) →
      mahonyAHRSupdate s gx gy gz ax ay az mx my mz deltaTimeSec =
        mahonyAHRSupdateIMU
          { s with recipSampleFreq := jsOr deltaTimeSec s.recipSampleFreq }
          gx gy gz ax ay az) ∧
    (¬(mx = 0 ∧ my = 0 ∧ mz = 0) →
      mahonyAHRSupdate s gx gy gz ax ay az mx my mz deltaTimeSec =
        mahonyAHRSupdate9
          { s with recipSampleFreq := jsOr deltaTimeSec s.recipSampleFreq }
          gx gy gz ax ay az mx my mz) := by
  constructor
  · intro h
    simp only [mahonyAHRSupdate, if_pos h]
  · intro h
    simp only [mahonyAHRSupdate, if_neg h]

/-- Witness for C4: both dispatch directions at concrete inputs. -/
theorem update_mode_dispatch_witness :
    mahonyAHRSupdate (Mahony 20) 1 2 3 4 5 6 0 0 0 0 =
      mahonyAHRSupdateIMU
        { Mahony 20 with recipSampleFreq := jsOr 0 (Mahony 20).recipSampleFreq }
        1 2 3 4 5 6 ∧
    mahonyAHRSupdate (Mahony 20) 1 2 3 4 5 6 7 8 9 0 =
      mahonyAHRSupdate9
        { Mahony 20 with recipSampleFreq := jsOr 0 (Mahony 20).recipSampleFreq }
        1 2 3 4 5 6 7 8 9 :=
  ⟨(update_mode_dispatch (Mahony 20) 1 2 3 4 5 6 0 0 0 0).1 ⟨rfl, rfl, rfl⟩,
   (update_mode_dispatch (Mahony 20) 1 2 3 4 5 6 7 8 9 0).2 (by norm_num)⟩

/-- C5: with accelerometer exactly `(0,0,0)`, both variants (and the full
update entry point, whatever the magnetometer) skip the whole feedback block:
the result is exactly the raw-gyro integration step, which leaves the
integral feedback fields untouched; no error is signalled (the functions are
total). -/
theorem zero_accel_skips_correction (s : MahonyState)
    (gx gy gz mx my mz deltaTimeSec : ℝ) :
    mahonyAHRSupdateIMU s gx gy gz 0 0 0 = integrateAndNormalise s gx gy gz ∧
    mahonyAHRSupdate9 s gx gy gz 0 0 0 mx my mz =
      integrateAndNormalise s gx gy gz ∧
    mahonyAHRSupdate s gx gy gz 0 0 0 mx my mz deltaTimeSec =
      integrateAndNormalise
        { s with recipSampleFreq := jsOr deltaTimeSec s.recipSampleFreq }
        gx gy gz := by
  refine ⟨updateIMU_zero_accel s gx gy gz, update9_zero_accel s gx gy gz mx my mz, ?_⟩
  simp only [mahonyAHRSupdate]
  split_ifs with hm
  · exact updateIMU_zero_accel _ gx gy gz
  · exact update9_zero_accel _ gx gy gz mx my mz

/-- C6: `initialise` always resets the quaternion to the identity
`(1, 0, 0, 0)`, whatever the accelerometer arguments, because its rotation
angle is the constant 0 (`sin 0 = 0` annihilates the inputs,
`cos 0 = 1`). -/
theorem initialise_always_identity (s : MahonyState) (amx amy amz : ℝ) :
    initialise s amx amy amz =
      { s with q0 := 1, q1 := 0, q2 := 0, q3 := 0 } :=
  initialise_eq s amx amy amz

/-- C7: `toVector` returns `angle = 2 * acos q0` and the axis components
`q1, q2, q3` each divided by `sin (angle / 2)`; at the identity orientation
(`q0 = 1`, so `angle = 0` and `sin (angle/2) = 0`) the three divisions are by
zero, producing non-finite axis components (`none` in the model), with no
guard in the operation. -/
theorem toVector_axis_angle (s : MahonyState) :
    (toVector s).angle = 2 * Real.arccos s.q0 ∧
    (toVector s).x = jsDiv s.q1 (Real.sin (Real.arccos s.q0)) ∧
    (toVector s).y = jsDiv s.q2 (Real.sin (Real.arccos s.q0)) ∧
    (toVector s).z = jsDiv s.q3 (Real.sin (Real.arccos s.q0)) ∧
    (s.q0 = 1 →
      (toVector s).angle = 0 ∧ (toVector s).x = none ∧
      (toVector s).y = none ∧ (toVector s).z = none) := by
  have harg : 2 * Real.arccos s.q0 / 2 = Real.arccos s.q0 := by ring
  refine ⟨rfl, ?_, ?_, ?_, ?_⟩
  · show jsDiv s.q1 (Real.sin (2 * Real.arccos s.q0 / 2)) = _
    rw [harg]
  · show jsDiv s.q2 (Real.sin (2 * Real.arccos s.q0 / 2)) = _
    rw [harg]
  · show jsDiv s.q3 (Real.sin (2 * Real.arccos s.q0 / 2)) = _
    rw [harg]
  · intro h1
    simp [toVector, h1, Real.arccos_one, Real.sin_zero, jsDiv]

/-- Witness for C7 at the identity orientation of a freshly constructed
filter: all three axis components are non-finite. -/
theorem toVector_axis_angle_witness :
    (toVector (Mahony 20)).x = none ∧ (toVector (Mahony 20)).y = none ∧
      (toVector (Mahony 20)).z = none :=
  ⟨((toVector_axis_angle (Mahony 20)).2.2.2.2 rfl).2.1,
   ((toVector_axis_angle (Mahony 20)).2.2.2.2 rfl).2.2.1,
   ((toVector_axis_angle (Mahony 20)).2.2.2.2 rfl).2.2.2⟩

/-- C8: over any sequence of update calls started with the integral gain at
zero and a clean accumulator (as construction leaves it), the integral
feedback vector is `(0,0,0)` after every call — in particular after the whole
sequence and, since the sequence is arbitrary, after every prefix. -/
theorem anti_windup_zero_gain (s : MahonyState) (cs : List SensorCall)
    (hki : s.twoKi = 0) (hx : s.integralFBx = 0) (hy : s.integralFBy = 0)
    (hz : s.integralFBz = 0) :
    (runUpdates s cs).integralFBx = 0 ∧ (runUpdates s cs).integralFBy = 0 ∧
      (runUpdates s cs).integralFBz = 0 := by
  induction cs generalizing s with
  | nil => exact ⟨hx, hy, hz⟩
  | cons c cs ih =>
      have hki' : (applyCall s c).twoKi = 0 :=
        ((mahonyAHRSupdate_gains s c.gx c.gy c.gz c.ax c.ay c.az c.mx c.my
          c.mz c.deltaTimeSec).2.1).trans hki
      obtain ⟨hx', hy', hz'⟩ :=
        mahonyAHRSupdate_iFB_zero s c.gx c.gy c.gz c.ax c.ay c.az c.mx c.my
          c.mz c.deltaTimeSec hki hx hy hz
      exact ih (applyCall s c) hki' hx' hy' hz'

/-- Witness for C8: a constructed filter, one non-trivial update call. -/
theorem anti_windup_zero_gain_witness :
    (runUpdates (Mahony 20) [⟨1, 2, 3, 4, 5, 6, 7, 8, 9, 0⟩]).integralFBx = 0 ∧
    (runUpdates (Mahony 20) [⟨1, 2, 3, 4, 5, 6, 7, 8, 9, 0⟩]).integralFBy = 0 ∧
    (runUpdates (Mahony 20) [⟨1, 2, 3, 4, 5, 6, 7, 8, 9, 0⟩]).integralFBz = 0 :=
  anti_windup_zero_gain (Mahony 20) [⟨1, 2, 3, 4, 5, 6, 7, 8, 9, 0⟩]
    (by norm_num [Mahony]) (by norm_num [Mahony]) (by norm_num [Mahony])
    (by norm_num [Mahony])

/-- C9: construction fixes `twoKp = 2.0 * 0.5 = 1` and `twoKi = 2.0 * 0.0 = 0`
and no exposed operation modifies them, so in every reachable state the
integral-gain branch (`twoKi > 0`) is unreachable and the integral feedback
is `(0,0,0)` after every operation. -/
theorem gains_fixed_integral_branch_unreachable (s : MahonyState)
    (h : Reachable s) :
    s.twoKp = 1 ∧ s.twoKi = 0 ∧ ¬(s.twoKi > 0) ∧
    s.integralFBx = 0 ∧ s.integralFBy = 0 ∧ s.integralFBz = 0 := by
  induction h with
  | construct si =>
      obtain ⟨hp, hki, _, _, _, _, hx, hy, hz⟩ := Mahony_fields si
      refine ⟨hp, hki, ?_, hx, hy, hz⟩
      rw [hki]
      exact lt_irrefl 0
  | update s gx gy gz ax ay az mx my mz dt hs ih =>
      obtain ⟨hp, hki, hnk, hx, hy, hz⟩ := ih
      obtain ⟨gp, gki, _⟩ := mahonyAHRSupdate_gains s gx gy gz ax ay az mx my mz dt
      obtain ⟨hx', hy', hz'⟩ :=
        mahonyAHRSupdate_iFB_zero s gx gy gz ax ay az mx my mz dt hki hx hy hz
      refine ⟨gp.trans hp, gki.trans hki, ?_, hx', hy', hz'⟩
      rw [gki.trans hki]
      exact lt_irrefl 0
  | init s amx amy amz hs ih =>
      rw [initialise_eq]
      exact ih

/-- Witness for C9 at a concrete reachable state reached by an update call. -/
theorem gains_fixed_integral_branch_unreachable_witness :
    (mahonyAHRSupdate (Mahony 20) 1 2 3 4 5 6 7 8 9 0).twoKp = 1 ∧
    (mahonyAHRSupdate (Mahony 20) 1 2 3 4 5 6 7 8 9 0).twoKi = 0 ∧
    ¬((mahonyAHRSupdate (Mahony 20) 1 2 3 4 5 6 7 8 9 0).twoKi > 0) ∧
    (mahonyAHRSupdate (Mahony 20) 1 2 3 4 5 6 7 8 9 0).integralFBx = 0 ∧
    (mahonyAHRSupdate (Mahony 20) 1 2 3 4 5 6 7 8 9 0).integralFBy = 0 ∧
    (mahonyAHRSupdate (Mahony 20) 1 2 3 4 5 6 7 8 9 0).integralFBz = 0 :=
  gains_fixed_integral_branch_unreachable _
    (Reachable.update _ 1 2 3 4 5 6 7 8 9 0 (Reachable.construct 20))

/-- C10: from the identity orientation, one update call with all-zero gyro,
accelerometer and magnetometer (and omitted delta time, which behaves as 0)
leaves the quaternion at the identity: zero magnetometer routes to the IMU
variant, zero accelerometer skips the correction, zero rates integrate to a
zero increment, and renormalising a unit quaternion changes nothing. -/
theorem zero_input_identity (s : MahonyState) (h0 : s.q0 = 1) (h1 : s.q1 = 0)
    (h2 : s.q2 = 0) (h3 : s.q3 = 0) :
    (mahonyAHRSupdate s 0 0 0 0 0 0 0 0 0 0).q0 = 1 ∧
    (mahonyAHRSupdate s 0 0 0 0 0 0 0 0 0 0).q1 = 0 ∧
    (mahonyAHRSupdate s 0 0 0 0 0 0 0 0 0 0).q2 = 0 ∧
    (mahonyAHRSupdate s 0 0 0 0 0 0 0 0 0 0).q3 = 0 := by
  have hq : quatNormSq s.q0 s.q1 s.q2 s.q3 = 1 := by
    simp only [quatNormSq]
    rw [h0, h1, h2, h3]
    norm_num
  have hd : mahonyAHRSupdate s 0 0 0 0 0 0 0 0 0 0 =
      integrateAndNormalise
        { s with recipSampleFreq := jsOr 0 s.recipSampleFreq } 0 0 0 := by
    simp [mahonyAHRSupdate, updateIMU_zero_accel]
  rw [hd]
  obtain ⟨e0, e1, e2, e3⟩ :=
    integrateAndNormalise_zero_g
      { s with recipSampleFreq := jsOr 0 s.recipSampleFreq } hq
  exact ⟨e0.trans h0, e1.trans h1, e2.trans h2, e3.trans h3⟩

/-- Witness for C10 on a freshly constructed filter. -/
theorem zero_input_identity_witness :
    (mahonyAHRSupdate (Mahony 20) 0 0 0 0 0 0 0 0 0 0).q0 = 1 ∧
    (mahonyAHRSupdate (Mahony 20) 0 0 0 0 0 0 0 0 0 0).q1 = 0 ∧
    (mahonyAHRSupdate (Mahony 20) 0 0 0 0 0 0 0 0 0 0).q2 = 0 ∧
    (mahonyAHRSupdate (Mahony 20) 0 0 0 0 0 0 0 0 0 0).q3 = 0 :=
  zero_input_identity (Mahony 20) rfl rfl rfl rfl

/-- C2: against the spec's intended timestep semantics, a call with
`deltaTimeSec = 0` does NOT leave the configured reciprocal sample interval
unchanged: constructing with a 250 ms interval stores `0.25`, and one update
call with `deltaTimeSec = 0` destroys it, storing
`ToInt32(0) | ToInt32(0.25) = 0` permanently. -/
theorem update_zero_dt_destroys_recip :
    (Mahony 250).recipSampleFreq = 1 / 4 ∧
    (mahonyAHRSupdate (Mahony 250) 0 0 0 0 0 0 0 0 0 0).recipSampleFreq = 0 := by
  have h : (Mahony 250).recipSampleFreq = 1 / 4 := by
    simp only [Mahony]
    norm_num
  refine ⟨h, ?_⟩
  rw [(mahonyAHRSupdate_gains (Mahony 250) 0 0 0 0 0 0 0 0 0 0).2.2, h]
  exact jsOr_eq_zero 0 (1 / 4) le_rfl one_pos (by norm_num) (by norm_num)

/-- C3 counterexample to the claim as stated ("sample interval greater than
1000 ms"): with a 2000 ms interval the stored reciprocal interval is 2, and
an update call with `deltaTimeSec = 0` stores `0 | ToInt32(2) = 2`, not 0. -/
theorem recip_corruption_counterexample :
    (Mahony 2000).recipSampleFreq = 2 ∧
    (mahonyAHRSupdate (Mahony 2000) 0 0 0 0 0 0 0 0 0 0).recipSampleFreq ≠ 0 := by
  have h : (Mahony 2000).recipSampleFreq = 2 := by
    simp only [Mahony]
    norm_num
  refine ⟨h, ?_⟩
  rw [(mahonyAHRSupdate_gains (Mahony 2000) 0 0 0 0 0 0 0 0 0 0).2.2, h,
    jsOr_zero_two]
  norm_num

/-- C3 (amended): every update call overwrites the stored reciprocal sample
interval with the bitwise or of the ToInt32 conversions of `deltaTimeSec` and
the stored value; for every state with `0 ≤ recipSampleFreq < 1` (every
construction with a sample interval in (0, 1000) ms) a call with
`deltaTimeSec` absent, zero, or in `[0, 1)` stores 0, the corruption persists
through all subsequent calls whose `deltaTimeSec` stays in `[0, 1)`, and the
quaternion integration step is a no-op (timestep factor 0) from then on. -/
theorem recip_corruption_amended (s : MahonyState) (c : SensorCall)
    (cs : List SensorCall)
    (hr0 : 0 ≤ s.recipSampleFreq) (hr1 : s.recipSampleFreq < 1)
    (hd0 : 0 ≤ c.deltaTimeSec) (hd1 : c.deltaTimeSec < 1)
    (hq : quatNormSq s.q0 s.q1 s.q2 s.q3 = 1)
    (hcs : ∀ d ∈ cs, 0 ≤ d.deltaTimeSec ∧ d.deltaTimeSec < 1) :
    (∀ (t : MahonyState) (d : SensorCall),
      (applyCall t d).recipSampleFreq = jsOr d.deltaTimeSec t.recipSampleFreq) ∧
    (applyCall s c).recipSampleFreq = 0 ∧
    (runUpdates (applyCall s c) cs).recipSampleFreq = 0 ∧
    (runUpdates (applyCall s c) cs).q0 = (applyCall s c).q0 ∧
    (runUpdates (applyCall s c) cs).q1 = (applyCall s c).q1 ∧
    (runUpdates (applyCall s c) cs).q2 = (applyCall s c).q2 ∧
    (runUpdates (applyCall s c) cs).q3 = (applyCall s c).q3 := by
  have hover : ∀ (t : MahonyState) (d : SensorCall),
      (applyCall t d).recipSampleFreq = jsOr d.deltaTimeSec t.recipSampleFreq :=
    fun t d =>
      (mahonyAHRSupdate_gains t d.gx d.gy d.gz d.ax d.ay d.az d.mx d.my d.mz
        d.deltaTimeSec).2.2
  have hfirst : (applyCall s c).recipSampleFreq = 0 := by
    rw [hover s c]
    exact jsOr_eq_zero _ _ hd0 hd1 hr0 hr1
  have hqc : quatNormSq (applyCall s c).q0 (applyCall s c).q1
      (applyCall s c).q2 (applyCall s c).q3 = 1 :=
    mahonyAHRSupdate_normSq s c.gx c.gy c.gz c.ax c.ay c.az c.mx c.my c.mz
      c.deltaTimeSec hq
  have main : ∀ (ds : List SensorCall) (t : MahonyState),
      t.recipSampleFreq = 0 → quatNormSq t.q0 t.q1 t.q2 t.q3 = 1 →
      (∀ d ∈ ds, 0 ≤ d.deltaTimeSec ∧ d.deltaTimeSec < 1) →
      (runUpdates t ds).recipSampleFreq = 0 ∧
      (runUpdates t ds).q0 = t.q0 ∧ (runUpdates t ds).q1 = t.q1 ∧
      (runUpdates t ds).q2 = t.q2 ∧ (runUpdates t ds).q3 = t.q3 := by
    intro ds
    induction ds with
    | nil => exact fun t h1 _ _ => ⟨h1, rfl, rfl, rfl, rfl⟩
    | cons d ds ih =>
        intro t h1 h2 hds
        have hd := hds d (List.mem_cons_self d ds)
        have hor : jsOr d.deltaTimeSec t.recipSampleFreq = 0 := by
          rw [h1]
          exact jsOr_eq_zero _ _ hd.1 hd.2 le_rfl one_pos
        have hrec : (applyCall t d).recipSampleFreq = 0 := (hover t d).trans hor
        obtain ⟨f0, f1, f2, f3⟩ :=
          mahonyAHRSupdate_q_frozen t d.gx d.gy d.gz d.ax d.ay d.az d.mx d.my
            d.mz d.deltaTimeSec hor h2
        have hq' : quatNormSq (applyCall t d).q0 (applyCall t d).q1
            (applyCall t d).q2 (applyCall t d).q3 = 1 :=
          mahonyAHRSupdate_normSq t d.gx d.gy d.gz d.ax d.ay d.az d.mx d.my
            d.mz d.deltaTimeSec h2
        obtain ⟨m0, m1, m2, m3, m4⟩ :=
          ih (applyCall t d) hrec hq'
            (fun e he => hds e (List.mem_cons_of_mem d he))
        exact ⟨m0, m1.trans f0, m2.trans f1, m3.trans f2, m4.trans f3⟩
  obtain ⟨m0, m1, m2, m3, m4⟩ := main cs (applyCall s c) hfirst hqc hcs
  exact ⟨hover, hfirst, m0, m1, m2, m3, m4⟩

/-- Witness for C3 (amended): construction at 250 ms (stored reciprocal
interval 0.25), a first all-zero call, then one further non-trivial call. -/
theorem recip_corruption_amended_witness :
    (applyCall (Mahony 250) ⟨0, 0, 0, 0, 0, 0, 0, 0, 0, 0⟩).recipSampleFreq = 0 ∧
    (runUpdates (applyCall (Mahony 250) ⟨0, 0, 0, 0, 0, 0, 0, 0, 0, 0⟩)
      [⟨1, 2, 3, 4, 5, 6, 7, 8, 9, 1 / 2⟩]).recipSampleFreq = 0 ∧
    (runUpdates (applyCall (Mahony 250) ⟨0, 0, 0, 0, 0, 0, 0, 0, 0, 0⟩)
        [⟨1, 2, 3, 4, 5, 6, 7, 8, 9, 1 / 2⟩]).q0 =
      (applyCall (Mahony 250) ⟨0, 0, 0, 0, 0, 0, 0, 0, 0, 0⟩).q0 := by
  obtain ⟨_, h1, h2, h3, _, _, _⟩ :=
    recip_corruption_amended (Mahony 250) ⟨0, 0, 0, 0, 0, 0, 0, 0, 0, 0⟩
      [⟨1, 2, 3, 4, 5, 6, 7, 8, 9, 1 / 2⟩]
      (by norm_num [Mahony]) (by norm_num [Mahony]) le_rfl one_pos
      (by norm_num [quatNormSq, Mahony])
      (by
        intro d hd
        rw [List.mem_singleton] at hd
        subst hd
        norm_num)
  exact ⟨h1, h2, h3⟩
